import Mathlib

/-!
Shallow embedding of the `crespyl/old-gopher` repository (a Gopher protocol
client written in Rust) and proofs about its specification claims.

Strings are modelled as `List Char`.  Rust's `usize` is modelled as `Nat`
together with the explicit bound `usizeMax = 2^64 - 1` where overflow matters
(the port parser).  The regex character class `\d` of the item pattern is
modelled as the ASCII digits `0`-`9`; all inputs appearing in the claims stay
inside the fragment where this coincides with the source's behaviour.
-/

namespace OldGopher

/-- Convert a Lean string literal into the `List Char` string model. -/
def str (s : String) : List Char := s.data

/-- UTF-8 byte length of a string, as Rust's `str::len` computes it. -/
def utf8Len (s : List Char) : Nat := (s.map Char.utf8Size).sum

/-- `usize::MAX` on the 64-bit targets the client is built for. -/
def usizeMax : Nat := 2 ^ 64 - 1

/-- Rust's `Result` type. -/
inductive Result (α ε : Type) where
  | Ok (value : α)
  | Err (e : ε)
deriving DecidableEq, Repr

/-- `Result::map`, applied to the `Ok` value. -/
def Result.map {α β ε : Type} (f : α → β) : Result α ε → Result β ε
  | Result.Ok v => Result.Ok (f v)
  | Result.Err e => Result.Err e

/-- `Result::is_ok`. -/
def Result.is_ok {α ε : Type} : Result α ε → Bool
  | Result.Ok _ => true
  | Result.Err _ => false

/-- `std::io::Error`, modelled opaquely by its message. -/
structure IoError where
  msg : List Char
deriving DecidableEq, Repr

/-- `enum GopherError` from `src/lib.rs`. -/
inductive GopherError where
  | Io (e : IoError)
  | ParseDirectoryItem (s : List Char)
  | ParseDirectory (s : List Char)
deriving DecidableEq, Repr

/-- `enum Type` from `src/lib.rs` (named `Ty` because `Type` is reserved in Lean). -/
inductive Ty where
  | File
  | Directory
  | CSOPhoneBook
  | Error
  | BinHexed
  | BinArchive
  | UUEncoded
  | SearchServer
  | TelnetSession
  | Binary
  | RedundantServer
  | Tn3270Session
  | GIF
  | Image
  | Unknown (c : Char)
deriving DecidableEq, Repr

/-- `Type::from_char` from `src/lib.rs`. -/
def Ty.from_char (c : Char) : Ty :=
  match c with
  | '0' => Ty.File
  | '1' => Ty.Directory
  | '2' => Ty.CSOPhoneBook
  | '3' => Ty.Error
  | '4' => Ty.BinHexed
  | '5' => Ty.BinArchive
  | '6' => Ty.UUEncoded
  | '7' => Ty.SearchServer
  | '8' => Ty.TelnetSession
  | '9' => Ty.Binary
  | '+' => Ty.RedundantServer
  | 'T' => Ty.Tn3270Session
  | 'g' => Ty.GIF
  | 'I' => Ty.Image
  | other => Ty.Unknown other

/-- `Type::as_char` from `src/lib.rs`. -/
def Ty.as_char : Ty → Char
  | Ty.File => '0'
  | Ty.Directory => '1'
  | Ty.CSOPhoneBook => '2'
  | Ty.Error => '3'
  | Ty.BinHexed => '4'
  | Ty.BinArchive => '5'
  | Ty.UUEncoded => '6'
  | Ty.SearchServer => '7'
  | Ty.TelnetSession => '8'
  | Ty.Binary => '9'
  | Ty.RedundantServer => '+'
  | Ty.Tn3270Session => 'T'
  | Ty.GIF => 'g'
  | Ty.Image => 'I'
  | Ty.Unknown other => other

/-- `struct DirectoryItem` from `src/lib.rs`. -/
structure DirectoryItem where
  t : Ty
  name : List Char
  selector : List Char
  host : List Char
  port : Nat
deriving DecidableEq, Repr

/-- Decimal digit value accumulation: the value denoted by a list of ASCII
digit characters, as `str::parse::<usize>` computes it. -/
def decValue (ds : List Char) : Nat :=
  ds.foldl (fun acc c => 10 * acc + (c.toNat - 48)) 0

/-- `str::parse::<usize>()` restricted to the strings the port capture group
can produce (a possibly empty run of ASCII digits): fails on the empty string
and on overflow past `usize::MAX`, otherwise returns the denoted value. -/
def parseUsize (ds : List Char) : Option Nat :=
  if ds = [] then none
  else if decValue ds ≤ usizeMax then some (decValue ds) else none

/-- One attempt of the item regex
`(?P<t>.)(?P<name>[^\t]*)\t(?P<selector>[^\t]*)\t(?P<host>[^\t]*)\t(?P<port>\d*)`
anchored at the start of `s`, returning the captures
`(name, selector, host, port)`.  The leading `.` matches any character but a
newline; each `[^\t]*` is forced to stop exactly at the next tab; the final
`\d*` greedily takes digits with nothing after it, so the whole attempt is
deterministic.  Each literal `\t` of the pattern is consumed as the head of
the corresponding `dropWhile` result, which is a tab whenever it exists. -/
def matchHere (s : List Char) : Option (List Char × List Char × List Char × List Char) :=
  match s with
  | [] => none
  | c :: rest =>
    if c = '\n' then none
    else
      match rest.dropWhile (fun x => x ≠ '\t') with
      | [] => none
      | _ :: r1 =>
        match r1.dropWhile (fun x => x ≠ '\t') with
        | [] => none
        | _ :: r2 =>
          match r2.dropWhile (fun x => x ≠ '\t') with
          | [] => none
          | _ :: r3 =>
            some (rest.takeWhile (fun x => x ≠ '\t'),
              r1.takeWhile (fun x => x ≠ '\t'),
              r2.takeWhile (fun x => x ≠ '\t'),
              r3.takeWhile Char.isDigit)

/-- Leftmost regex search (`Regex::captures`): try each start position from the
left and return the first successful match's captures. -/
def findMatch : List Char → Option (List Char × List Char × List Char × List Char)
  | [] => none
  | c :: cs =>
    match matchHere (c :: cs) with
    | some r => some r
    | none => findMatch cs

/-- `DirectoryItem::from_str` from `src/lib.rs`: reject strings of byte length
at most 1, then run the regex; on a match, the type is taken from the first
character of the whole line (`s.chars().nth(0)`), and the port is
`parse().unwrap_or(70)` on the port capture. -/
def DirectoryItem.from_str (s : List Char) : Result DirectoryItem GopherError :=
  if utf8Len s ≤ 1 then Result.Err (GopherError.ParseDirectoryItem s)
  else
    match findMatch s with
    | some (name, selector, host, portDigits) =>
      Result.Ok
        { t := Ty.from_char (s.headD '\x00')
          name := name
          selector := selector
          host := host
          port := (parseUsize portDigits).getD 70 }
    | none => Result.Err (GopherError.ParseDirectoryItem s)

/-- `DirectoryItem::is_fake` from `src/lib.rs`. -/
def DirectoryItem.is_fake (item : DirectoryItem) : Bool :=
  (str "fake").isSuffixOf item.selector ||
    item.name == str "fake" ||
    item.host == str "fake"

/-- Modelled from the spec: the method `DirectoryItem::is_info` is called by
the navigation engine (`src/main.rs`) and the example client, but its
definition is not among the provided sources.  The spec classifies a line as
informational when it is "conventionally type `i`, or heuristically one whose
selector/name/host equals the literal token `fake` or whose selector ends in
`fake`"; the heuristic part is exactly `is_fake` from the sources. -/
def DirectoryItem.is_info (item : DirectoryItem) : Bool :=
  item.t == Ty.Unknown 'i' || item.is_fake

/-- Modelled from the spec: the convenience classification
`is_navigable(item)` "returns false for informational items and true
otherwise". -/
def is_navigable (item : DirectoryItem) : Bool :=
  !item.is_info

/-- `struct Directory` from `src/lib.rs`. -/
structure Directory where
  items : List DirectoryItem
deriving DecidableEq, Repr

/-- Strip one trailing carriage return, as `str::lines` does on lines ended by
`\r\n`. -/
def stripCr (l : List Char) : List Char :=
  if l.getLast? = some '\r' then l.dropLast else l

/-- Worker for `rustLines`; `acc` holds the current line, reversed. -/
def linesAux : List Char → List Char → List (List Char)
  | [], acc => if acc = [] then [] else [acc.reverse]
  | c :: cs, acc =>
    if c = '\n' then stripCr acc.reverse :: linesAux cs []
    else linesAux cs (c :: acc)

/-- Rust's `str::lines`: split at `\n` or `\r\n`, final line ending optional,
a lone final fragment without a line ending is kept as is (including any
trailing `\r`). -/
def rustLines (s : List Char) : List (List Char) := linesAux s []

/-- The line loop of `Directory::from_str`: stop at a line equal to `"."`,
otherwise parse each line as an item; the first failing line aborts the whole
parse with `GopherError::ParseDirectoryItem` carrying that line. -/
def parseLines : List (List Char) → Result (List DirectoryItem) GopherError
  | [] => Result.Ok []
  | line :: rest =>
    if line = ['.'] then Result.Ok []
    else
      match DirectoryItem.from_str line with
      | Result.Ok item => (parseLines rest).map (fun items => item :: items)
      | Result.Err _ => Result.Err (GopherError.ParseDirectoryItem line)

/-- `Directory::from_str` from `src/lib.rs`. -/
def Directory.from_str (s : List Char) : Result Directory GopherError :=
  (parseLines (rustLines s)).map (fun items => { items := items })

/-- Decimal digit character, `'0'` through `'9'`. -/
def digitChar (n : Nat) : Char := Char.ofNat (48 + n % 10)

/-- Worker for `natToDecimal`.  The first argument is fuel making the
recursion structural (so that the kernel can evaluate it); `natToDecimal`
always supplies enough fuel, so the fuel-exhausted arm is unreachable. -/
def natToDecimalAux : Nat → Nat → List Char
  | 0, _ => []
  | fuel + 1, n =>
    if n < 10 then [digitChar n]
    else natToDecimalAux fuel (n / 10) ++ [digitChar (n % 10)]

/-- Decimal representation of a natural number, most significant digit first,
as Rust's `Display` for `usize` prints it. -/
def natToDecimal (n : Nat) : List Char := natToDecimalAux (n + 1) n

/-- `impl fmt::Display for DirectoryItem` from `src/lib.rs`:
`{t}{name}\t{selector}\t{host}\t{port}`. -/
def DirectoryItem.fmt (item : DirectoryItem) : List Char :=
  item.t.as_char :: item.name ++ '\t' :: item.selector ++ '\t' :: item.host
    ++ '\t' :: natToDecimal item.port

/-- `impl fmt::Display for Directory` from `src/lib.rs`: each item followed by
a newline, then the terminator line `"."`. -/
def Directory.fmt (d : Directory) : List Char :=
  (d.items.map (fun item => item.fmt ++ ['\n'])).flatten ++ ['.']

example :
    DirectoryItem.from_str (str "0A Sample Text File\t/sample.txt\tgopher.example.net\t70") =
      Result.Ok
        { t := Ty.File, name := str "A Sample Text File", selector := str "/sample.txt",
          host := str "gopher.example.net", port := 70 } := by decide

example :
    Directory.from_str (str "0a\tb\tc\t70\n1d\te\tf\t9120\n.") =
      Result.Ok
        { items :=
            [ { t := Ty.File, name := str "a", selector := str "b", host := str "c", port := 70 },
              { t := Ty.Directory, name := str "d", selector := str "e", host := str "f",
                port := 9120 } ] } := by decide

example : Directory.from_str (str "hello") =
    Result.Err (GopherError.ParseDirectoryItem (str "hello")) := by decide

/-! ## Navigation engine (`src/main.rs`)

The transport call `get_resource(host, port, selector)` is blocking network
I/O; it is modelled as an explicit oracle of type `Fetch` passed to the
operations that perform a fetch. -/

/-- Transport oracle: the outcome of `get_resource(host, port, selector)`. -/
def Fetch : Type := List Char → Nat → List Char → Result (List Char) IoError

/-- `enum State` from `src/main.rs`. -/
inductive State where
  | DisplayDirectory (location : List Char) (dir : Directory) (scroll : Nat)
  | DisplayResource (location : List Char) (s : List Char) (scroll : Nat)
  | ShowMessage (s : List Char)
  | Error (e : GopherError)
deriving DecidableEq, Repr

/-- `struct Gopher` from `src/main.rs`.  The Rust `Vec<State>` stack is
modelled with its top (most recently pushed) element at the head of the
list, so `states.push(x)` is `x :: states` and `states[len-1]` is the head. -/
structure Gopher where
  current_host : List Char
  current_port : Nat
  current_selector : List Char
  states : List State
deriving DecidableEq, Repr

/-- The location string `format!("{}:{} {}", host, port, selector)` used for
directory and resource views. -/
def location (host : List Char) (port : Nat) (selector : List Char) : List Char :=
  host ++ ':' :: natToDecimal port ++ ' ' :: selector

/-- `Gopher::new` from `src/main.rs`: perform the initial fetch; on success
try to parse a directory, a parse failure yields `State::Error` with the
parse error; a transport failure yields `State::Error` with the I/O error. -/
def Gopher.new (fetch : Fetch) (host : List Char) (port : Nat)
    (selector : List Char) : Gopher :=
  let resource := fetch host port selector
  { current_host := host
    current_port := port
    current_selector := selector
    states :=
      [ match resource with
        | Result.Ok s =>
          match Directory.from_str s with
          | Result.Ok directory =>
            State.DisplayDirectory (location host port selector) directory 0
          | Result.Err e => State.Error e
        | Result.Err e => State.Error (GopherError.Io e) ] }

/-- `Gopher::scroll` from `src/main.rs`: adjust the scroll offset of the top
view when it is a directory or resource view, clamping below at 0 (the
`isize` cast and addition are modelled on `Int`); otherwise do nothing. -/
def Gopher.scroll (g : Gopher) (amount : Int) : Gopher :=
  { g with
    states :=
      match g.states with
      | State.DisplayDirectory l d sc :: rest =>
        let new_scroll : Int := (sc : Int) + amount
        State.DisplayDirectory l d (if new_scroll < 0 then 0 else new_scroll.toNat) :: rest
      | State.DisplayResource l s sc :: rest =>
        let new_scroll : Int := (sc : Int) + amount
        State.DisplayResource l s (if new_scroll < 0 then 0 else new_scroll.toNat) :: rest
      | other => other }

/-- `Gopher::pop_state` from `src/main.rs`: pop the top view unless only one
view remains. -/
def Gopher.pop_state (g : Gopher) : Gopher :=
  { g with states := if g.states.length > 1 then g.states.tail else g.states }

/-- The fetch-and-classify step of `Gopher::activate_item`
(`src/main.rs` lines 176-188): fetch the item's resource; on success try the
directory parse and fall back to a raw resource view; on transport failure
produce an error view. -/
def fetch_state (fetch : Fetch) (item : DirectoryItem) : State :=
  match fetch item.host item.port item.selector with
  | Result.Ok resource =>
    match Directory.from_str resource with
    | Result.Ok directory =>
      State.DisplayDirectory (location item.host item.port item.selector) directory 0
    | Result.Err _ =>
      State.DisplayResource (location item.host item.port item.selector) resource 0
  | Result.Err e => State.Error (GopherError.Io e)

/-- `Gopher::activate_item` from `src/main.rs`: when the top view is a
directory, select the `n`-th element of the item list after skipping `scroll`
items and removing informational items (`skip(scroll).filter(!is_info).nth(n)`);
fetch it when found, otherwise push a "No such item" message.  When the top
view is anything else push a "Not in a directory" message (the source's
`current_state` panics on an empty stack, which is unreachable; the model's
catch-all arm covers it together with the non-directory states).  The new
state is always pushed. -/
def Gopher.activate_item (fetch : Fetch) (g : Gopher) (n : Nat) : Gopher :=
  let new_state :=
    match g.states with
    | State.DisplayDirectory _ dir scroll :: _ =>
      match ((dir.items.drop scroll).filter (fun item => !item.is_info))[n]? with
      | some item => fetch_state fetch item
      | none => State.ShowMessage (str "No such item")
    | _ => State.ShowMessage (str "Not in a directory")
  { g with states := new_state :: g.states }

/-- One user-driven operation of the control loop in `main`, with the
transport outcome for an activation recorded in the operation itself. -/
inductive Op where
  | go_back
  | scroll (amount : Int)
  | activate (fetch : Fetch) (n : Nat)

/-- Apply one operation to the session. -/
def applyOp (g : Gopher) : Op → Gopher
  | Op.go_back => g.pop_state
  | Op.scroll amount => g.scroll amount
  | Op.activate fetch n => g.activate_item fetch n

/-- Run a sequence of operations, oldest first. -/
def runOps (g : Gopher) (ops : List Op) : Gopher :=
  ops.foldl applyOp g

/-- Statement helper: whether a view is a directory listing. -/
def isListingView : State → Bool
  | State.DisplayDirectory _ _ _ => true
  | _ => false

/-! ## Concrete witness data -/

/-- A navigable sample item. -/
def itemW : DirectoryItem :=
  { t := Ty.File, name := str "item", selector := str "sel", host := str "hostw", port := 70 }

/-- A one-item sample directory. -/
def dirW : Directory := { items := [itemW] }

/-- A session whose top view lists `dirW`. -/
def gListing : Gopher :=
  { current_host := str "h", current_port := 70, current_selector := []
    states := [State.DisplayDirectory (str "loc") dirW 0] }

/-- A session whose top view is an empty listing. -/
def gEmptyListing : Gopher :=
  { current_host := str "h", current_port := 70, current_selector := []
    states := [State.DisplayDirectory (str "loc") { items := [] } 0] }

/-- A session whose top view is a message. -/
def gMessage : Gopher :=
  { current_host := str "h", current_port := 70, current_selector := []
    states := [State.ShowMessage (str "m")] }

/-- A transport oracle that always yields a non-directory body. -/
def fetchTextW : Fetch := fun _ _ _ => Result.Ok (str "plain")

/-- A transport oracle that always fails. -/
def fetchErrW : Fetch := fun _ _ _ => Result.Err { msg := str "refused" }

/-! ## Session lemmas -/

/-- `scroll` never changes the stack length. -/
theorem scroll_states_length (g : Gopher) (a : Int) :
    (g.scroll a).states.length = g.states.length := by
  rcases hs : g.states with _ | ⟨st, rest⟩
  · simp [Gopher.scroll, hs]
  · cases st <;> simp [Gopher.scroll, hs]

/-- `activate_item` grows the stack length by one. -/
theorem activate_item_states_length (fetch : Fetch) (g : Gopher) (n : Nat) :
    (g.activate_item fetch n).states.length = g.states.length + 1 := by
  simp [Gopher.activate_item]

/-- Every operation preserves non-emptiness of the stack. -/
theorem applyOp_stack_pos (g : Gopher) (op : Op) (h : 1 ≤ g.states.length) :
    1 ≤ (applyOp g op).states.length := by
  cases op with
  | go_back =>
    simp only [applyOp, Gopher.pop_state]
    split
    · rename_i hlt
      simp only [List.length_tail]
      omega
    · exact h
  | scroll amount =>
    simpa [applyOp, scroll_states_length] using h
  | activate fetch n =>
    simp [applyOp, activate_item_states_length]

/-- Any operation sequence preserves non-emptiness of the stack. -/
theorem runOps_stack_pos (ops : List Op) :
    ∀ g : Gopher, 1 ≤ g.states.length → 1 ≤ (runOps g ops).states.length := by
  induction ops with
  | nil => intro g h; exact h
  | cons op rest ih =>
    intro g h
    exact ih (applyOp g op) (applyOp_stack_pos g op h)

/-- The freshly constructed session has exactly one view. -/
theorem new_states_length (fetch : Fetch) (host : List Char) (port : Nat)
    (selector : List Char) :
    (Gopher.new fetch host port selector).states.length = 1 := by
  simp [Gopher.new]

/-- First failing pre-terminator line aborts the line loop with
`ParseDirectoryItem` carrying an offending line. -/
theorem parseLines_first_bad (ls : List (List Char)) (l : List Char)
    (hmem : l ∈ ls.takeWhile (fun x => x ≠ ['.']))
    (hbad : (DirectoryItem.from_str l).is_ok = false) :
    ∃ f, f ∈ ls.takeWhile (fun x => x ≠ ['.']) ∧
      (DirectoryItem.from_str f).is_ok = false ∧
      parseLines ls = Result.Err (GopherError.ParseDirectoryItem f) := by
  induction ls with
  | nil => simp at hmem
  | cons a rest ih =>
    by_cases ha : a = ['.']
    · subst ha
      simp [List.takeWhile_cons] at hmem
    · have htw : (a :: rest).takeWhile (fun x => x ≠ ['.']) =
          a :: rest.takeWhile (fun x => x ≠ ['.']) := by
        rw [List.takeWhile_cons]
        simp [ha]
      rw [htw] at hmem
      rw [List.mem_cons] at hmem
      rcases hfs : DirectoryItem.from_str a with item | e
      · rcases hmem with rfl | hmem'
        · rw [hfs] at hbad
          simp [Result.is_ok] at hbad
        · obtain ⟨f, hf1, hf2, hf3⟩ := ih hmem'
          refine ⟨f, ?_, hf2, ?_⟩
          · rw [htw, List.mem_cons]
            exact Or.inr hf1
          · simp [parseLines, ha, hfs, hf3, Result.map]
      · refine ⟨a, ?_, ?_, ?_⟩
        · rw [htw, List.mem_cons]
          exact Or.inl rfl
        · rw [hfs]; rfl
        · simp [parseLines, ha, hfs]

/-! ## Claim theorems: navigation engine -/

/-- C5: for every session state and every index `n`, `activate` increases the
length of the view stack by exactly one, in all outcomes (a new view is
pushed unconditionally). -/
theorem C5_activate_grows_stack_by_one (fetch : Fetch) (g : Gopher) (n : Nat) :
    (g.activate_item fetch n).states.length = g.states.length + 1 := by
  simp [Gopher.activate_item]

/-- C3: the view stack is non-empty in every state reachable from
construction by any sequence of `go_back`, `scroll` and `activate`
operations; and `go_back` on a session whose stack holds only one view is a
no-op. -/
theorem C3_stack_invariant (fetch : Fetch) (host : List Char) (port : Nat)
    (selector : List Char) (ops : List Op) (g : Gopher)
    (hg : g.states.length = 1) :
    1 ≤ (runOps (Gopher.new fetch host port selector) ops).states.length ∧
    g.pop_state = g := by
  constructor
  · exact runOps_stack_pos ops _ (by simp [new_states_length])
  · simp [Gopher.pop_state, hg]

/-- Witness for C3 at concrete inputs. -/
theorem C3_witness :
    1 ≤ (runOps (Gopher.new fetchErrW (str "h") 70 [])
        [Op.go_back, Op.scroll (-3), Op.go_back]).states.length ∧
    Gopher.pop_state gMessage = gMessage :=
  C3_stack_invariant fetchErrW (str "h") 70 []
    [Op.go_back, Op.scroll (-3), Op.go_back] gMessage (by decide)

/-- C4: `activate n` on a listing selects the `n`-th element of the sequence
obtained by dropping the first `scroll` items and keeping the non-informational
items; when that sequence has at most `n` elements it pushes the
"No such item" message with no dependence on the transport; on a
non-listing view it pushes the "Not in a directory" message with no
dependence on the transport. -/
theorem C4_activate_selection (fetch fa fb : Fetch) (n : Nat)
    (g1 : Gopher) (loc : List Char) (dir : Directory) (sc : Nat)
    (rest : List State) (item : DirectoryItem)
    (h1 : g1.states = State.DisplayDirectory loc dir sc :: rest)
    (hitem : ((dir.items.drop sc).filter (fun i => !i.is_info))[n]? = some item)
    (g2 : Gopher) (loc2 : List Char) (dir2 : Directory) (sc2 : Nat)
    (rest2 : List State)
    (h2 : g2.states = State.DisplayDirectory loc2 dir2 sc2 :: rest2)
    (hnone : ((dir2.items.drop sc2).filter (fun i => !i.is_info)).length ≤ n)
    (g3 : Gopher) (st : State) (rest3 : List State)
    (h3 : g3.states = st :: rest3)
    (hst : isListingView st = false) :
    (g1.activate_item fetch n).states = fetch_state fetch item :: g1.states ∧
    ((g2.activate_item fa n).states =
        State.ShowMessage (str "No such item") :: g2.states ∧
      g2.activate_item fa n = g2.activate_item fb n) ∧
    ((g3.activate_item fa n).states =
        State.ShowMessage (str "Not in a directory") :: g3.states ∧
      g3.activate_item fa n = g3.activate_item fb n) := by
  refine ⟨?_, ⟨?_, ?_⟩, ⟨?_, ?_⟩⟩
  · simp [Gopher.activate_item, h1, hitem]
  · simp [Gopher.activate_item, h2, List.getElem?_eq_none hnone]
  · simp [Gopher.activate_item, h2, List.getElem?_eq_none hnone]
  · cases st <;> simp_all [Gopher.activate_item, isListingView]
  · cases st <;> simp_all [Gopher.activate_item, isListingView]

/-- Witness for C4 at concrete inputs. -/
theorem C4_witness :
    (gListing.activate_item fetchTextW 0).states =
      fetch_state fetchTextW itemW :: gListing.states ∧
    ((gEmptyListing.activate_item fetchTextW 0).states =
        State.ShowMessage (str "No such item") :: gEmptyListing.states ∧
      gEmptyListing.activate_item fetchTextW 0 =
        gEmptyListing.activate_item fetchErrW 0) ∧
    ((gMessage.activate_item fetchTextW 0).states =
        State.ShowMessage (str "Not in a directory") :: gMessage.states ∧
      gMessage.activate_item fetchTextW 0 = gMessage.activate_item fetchErrW 0) :=
  C4_activate_selection fetchTextW fetchTextW fetchErrW 0
    gListing (str "loc") dirW 0 [] itemW (by decide) (by decide)
    gEmptyListing (str "loc") { items := [] } 0 [] (by decide) (by decide)
    gMessage (State.ShowMessage (str "m")) [] (by decide) (by decide)

/-- C1 (amended): on a subsequent fetch (`activate`), a successful transport
fetch whose body fails the directory parse pushes a raw-text view with the
response body and scroll 0; but on the initial fetch (`Gopher::new`), the
same situation installs an error view carrying the parse error as the root,
not a text view. -/
theorem C1_parse_fallback (fetch : Fetch) (g : Gopher) (n : Nat)
    (loc : List Char) (dir : Directory) (sc : Nat) (rest : List State)
    (item : DirectoryItem) (body : List Char) (e : GopherError)
    (hg : g.states = State.DisplayDirectory loc dir sc :: rest)
    (hitem : ((dir.items.drop sc).filter (fun i => !i.is_info))[n]? = some item)
    (hfetch : fetch item.host item.port item.selector = Result.Ok body)
    (hparse : Directory.from_str body = Result.Err e)
    (fetch2 : Fetch) (host2 : List Char) (port2 : Nat) (sel2 : List Char)
    (body2 : List Char) (e2 : GopherError)
    (hfetch2 : fetch2 host2 port2 sel2 = Result.Ok body2)
    (hparse2 : Directory.from_str body2 = Result.Err e2) :
    (g.activate_item fetch n).states =
      State.DisplayResource (location item.host item.port item.selector) body 0
        :: g.states ∧
    (Gopher.new fetch2 host2 port2 sel2).states = [State.Error e2] := by
  constructor
  · simp [Gopher.activate_item, hg, hitem, fetch_state, hfetch, hparse]
  · simp [Gopher.new, hfetch2, hparse2]

/-- Counterexample for C1 as stated: constructing the session with a
successfully fetched non-directory body yields an error (Failure) view as
the root, not a text view. -/
theorem C1_counterexample :
    (Gopher.new (fun _ _ _ => Result.Ok (str "hello")) (str "h") 70 []).states =
      [State.Error (GopherError.ParseDirectoryItem (str "hello"))] ∧
    (Gopher.new (fun _ _ _ => Result.Ok (str "hello")) (str "h") 70 []).states ≠
      [State.DisplayResource (location (str "h") 70 []) (str "hello") 0] := by
  constructor
  · decide
  · decide

/-- Witness for C1 at concrete inputs. -/
theorem C1_witness :
    (gListing.activate_item fetchTextW 0).states =
      State.DisplayResource (location itemW.host itemW.port itemW.selector)
        (str "plain") 0 :: gListing.states ∧
    (Gopher.new fetchTextW (str "h") 70 []).states =
      [State.Error (GopherError.ParseDirectoryItem (str "plain"))] :=
  C1_parse_fallback fetchTextW gListing 0 (str "loc") dirW 0 [] itemW
    (str "plain") (GopherError.ParseDirectoryItem (str "plain"))
    (by decide) (by decide) (by decide) (by decide)
    fetchTextW (str "h") 70 [] (str "plain")
    (GopherError.ParseDirectoryItem (str "plain"))
    (by decide) (by decide)

/-- C2 (amended): an input text with a line before any terminator line that
fails per-item parsing makes the whole directory parse fail with
`GopherError::ParseDirectoryItem` (the spec's `ParseError::Item` variant,
not `ParseError::Directory`) carrying an offending line, and no partial
directory is returned. -/
theorem C2_parse_abort (s l : List Char)
    (hmem : l ∈ (rustLines s).takeWhile (fun x => x ≠ ['.']))
    (hbad : (DirectoryItem.from_str l).is_ok = false) :
    ∃ f, f ∈ (rustLines s).takeWhile (fun x => x ≠ ['.']) ∧
      (DirectoryItem.from_str f).is_ok = false ∧
      Directory.from_str s = Result.Err (GopherError.ParseDirectoryItem f) := by
  obtain ⟨f, h1, h2, h3⟩ := parseLines_first_bad (rustLines s) l hmem hbad
  exact ⟨f, h1, h2, by simp [Directory.from_str, h3, Result.map]⟩

/-- Counterexample for C2 as stated: the error on a failing line is the
`ParseDirectoryItem` variant, not the `ParseDirectory` variant named by the
claim. -/
theorem C2_counterexample :
    Directory.from_str (str "bad line\n.") =
      Result.Err (GopherError.ParseDirectoryItem (str "bad line")) ∧
    Directory.from_str (str "bad line\n.") ≠
      Result.Err (GopherError.ParseDirectory (str "bad line")) := by
  constructor
  · decide
  · decide

/-! ## Item parser lemmas -/

/-- Each character occupies at least one UTF-8 byte. -/
theorem length_le_utf8Len (s : List Char) : s.length ≤ utf8Len s := by
  induction s with
  | nil => simp [utf8Len]
  | cons c cs ih =>
    simp only [utf8Len, List.map_cons, List.sum_cons, List.length_cons] at ih ⊢
    have := Char.utf8Size_pos c
    omega

/-- A tab-free prefix is what `[^\t]*` captures before a literal tab. -/
theorem takeWhile_append_tab (a b : List Char) (ha : '\t' ∉ a) :
    (a ++ '\t' :: b).takeWhile (fun x => x ≠ '\t') = a := by
  induction a with
  | nil => rw [List.nil_append, List.takeWhile_cons, if_neg (by simp)]
  | cons c cs ih =>
    simp only [List.mem_cons, not_or] at ha
    have hc : c ≠ '\t' := fun h => ha.1 h.symm
    rw [List.cons_append, List.takeWhile_cons, if_pos (by simp [hc]), ih ha.2]

/-- Dropping a tab-free prefix stops exactly at the literal tab. -/
theorem dropWhile_append_tab (a b : List Char) (ha : '\t' ∉ a) :
    (a ++ '\t' :: b).dropWhile (fun x => x ≠ '\t') = '\t' :: b := by
  induction a with
  | nil => rw [List.nil_append, List.dropWhile_cons, if_neg (by simp)]
  | cons c cs ih =>
    simp only [List.mem_cons, not_or] at ha
    have hc : c ≠ '\t' := fun h => ha.1 h.symm
    rw [List.cons_append, List.dropWhile_cons, if_pos (by simp [hc]), ih ha.2]

/-- When `dropWhile` over the non-tab predicate yields a cons, its head is a
tab and one tab of the original list is consumed. -/
theorem dropWhile_tab_head (l : List Char) (c : Char) (r : List Char)
    (h : l.dropWhile (fun x => x ≠ '\t') = c :: r) :
    c = '\t' ∧ l.count '\t' = r.count '\t' + 1 := by
  induction l with
  | nil => simp at h
  | cons a as ih =>
    by_cases ha : a = '\t'
    · subst ha
      rw [List.dropWhile_cons, if_neg (by simp)] at h
      injection h with h1 h2
      subst h1
      subst h2
      refine ⟨rfl, ?_⟩
      simp [List.count_cons]
    · rw [List.dropWhile_cons, if_pos (by simp [ha])] at h
      obtain ⟨hc, hcount⟩ := ih h
      refine ⟨hc, ?_⟩
      rw [List.count_cons]
      simp [ha, Ne.symm ha, hcount]

/-- A list holding a tab splits at the first one under `dropWhile`. -/
theorem dropWhile_tab_of_count (l : List Char) (h : 0 < l.count '\t') :
    ∃ r, l.dropWhile (fun x => x ≠ '\t') = '\t' :: r ∧
      l.count '\t' = r.count '\t' + 1 := by
  induction l with
  | nil => simp at h
  | cons a as ih =>
    by_cases ha : a = '\t'
    · subst ha
      refine ⟨as, ?_, ?_⟩
      · rw [List.dropWhile_cons, if_neg (by simp)]
      · simp [List.count_cons]
    · have h' : 0 < as.count '\t' := by
        rw [List.count_cons] at h
        simpa [ha, Ne.symm ha] using h
      obtain ⟨r, hr, hc⟩ := ih h'
      refine ⟨r, ?_, ?_⟩
      · rw [List.dropWhile_cons, if_pos (by simp [ha]), hr]
      · rw [List.count_cons]
        simp [ha, Ne.symm ha, hc]

/-- A successful regex attempt needs three tabs past the matched first
character. -/
theorem matchHere_some_tabs (c : Char) (cs : List Char)
    (r : List Char × List Char × List Char × List Char)
    (h : matchHere (c :: cs) = some r) : 3 ≤ cs.count '\t' := by
  simp only [matchHere] at h
  by_cases hc : c = '\n'
  · rw [if_pos hc] at h
    exact absurd h (by simp)
  · rw [if_neg hc] at h
    rcases hd1 : cs.dropWhile (fun x => x ≠ '\t') with _ | ⟨t1, r1⟩
    · rw [hd1] at h
      exact absurd h (by simp)
    · obtain ⟨-, hc1⟩ := dropWhile_tab_head cs t1 r1 hd1
      rw [hd1] at h
      dsimp only at h
      rcases hd2 : r1.dropWhile (fun x => x ≠ '\t') with _ | ⟨t2, r2⟩
      · rw [hd2] at h
        exact absurd h (by simp)
      · obtain ⟨-, hc2⟩ := dropWhile_tab_head r1 t2 r2 hd2
        rw [hd2] at h
        dsimp only at h
        rcases hd3 : r2.dropWhile (fun x => x ≠ '\t') with _ | ⟨t3, r3⟩
        · rw [hd3] at h
          exact absurd h (by simp)
        · obtain ⟨-, hc3⟩ := dropWhile_tab_head r2 t3 r3 hd3
          omega

/-- Three tabs past a non-newline first character make the regex attempt
succeed. -/
theorem matchHere_some_of_count (c : Char) (cs : List Char) (hc : c ≠ '\n')
    (h : 3 ≤ cs.count '\t') :
    ∃ r, matchHere (c :: cs) = some r := by
  obtain ⟨r1, hd1, hc1⟩ := dropWhile_tab_of_count cs (by omega)
  obtain ⟨r2, hd2, hc2⟩ := dropWhile_tab_of_count r1 (by omega)
  obtain ⟨r3, hd3, hc3⟩ := dropWhile_tab_of_count r2 (by omega)
  refine ⟨(cs.takeWhile (fun x => x ≠ '\t'), r1.takeWhile (fun x => x ≠ '\t'),
    r2.takeWhile (fun x => x ≠ '\t'), r3.takeWhile Char.isDigit), ?_⟩
  simp only [matchHere]
  rw [if_neg hc, hd1]
  dsimp only
  rw [hd2]
  dsimp only
  rw [hd3]

/-- A successful leftmost search needs three tabs after the first character
of the searched string. -/
theorem findMatch_some_tabs (s : List Char)
    (r : List Char × List Char × List Char × List Char)
    (h : findMatch s = some r) : 3 ≤ (s.drop 1).count '\t' := by
  induction s with
  | nil => simp [findMatch] at h
  | cons c cs ih =>
    have hg : (c :: cs).drop 1 = cs := rfl
    rw [hg]
    simp only [findMatch] at h
    rcases hm : matchHere (c :: cs) with _ | r0
    · rw [hm] at h
      dsimp only at h
      have h3 := ih h
      have hle : ((cs.drop 1).count '\t') ≤ cs.count '\t' :=
        (List.drop_sublist 1 cs).count_le '\t'
      omega
    · exact matchHere_some_tabs c cs r0 hm

/-- Three tabs past a non-newline head character make the leftmost search
succeed. -/
theorem findMatch_of_head (c : Char) (cs : List Char) (hc : c ≠ '\n')
    (h : 3 ≤ cs.count '\t') :
    ∃ r, findMatch (c :: cs) = some r := by
  obtain ⟨r, hr⟩ := matchHere_some_of_count c cs hc h
  refine ⟨r, ?_⟩
  simp only [findMatch]
  rw [hr]

/-- The regex attempt anchored at the start of the four-field grammar line
returns exactly the grammar's fields. -/
theorem matchHere_grammar (tc : Char) (name sel host rest : List Char)
    (htc : tc ≠ '\n') (hn : '\t' ∉ name) (hs : '\t' ∉ sel) (hh : '\t' ∉ host) :
    matchHere (tc :: (name ++ '\t' :: (sel ++ '\t' :: (host ++ '\t' :: rest)))) =
      some (name, sel, host, rest.takeWhile Char.isDigit) := by
  simp only [matchHere]
  rw [if_neg htc, dropWhile_append_tab name _ hn]
  dsimp only
  rw [dropWhile_append_tab sel _ hs]
  dsimp only
  rw [dropWhile_append_tab host _ hh]
  dsimp only
  rw [takeWhile_append_tab name _ hn, takeWhile_append_tab sel _ hs,
    takeWhile_append_tab host _ hh]

/-- `DirectoryItem::from_str` on a four-field grammar line whose first
character is not a newline: name, selector and host are the tab-delimited
segments and the port is the usize parse of the digit prefix of whatever
follows the third tab, defaulting to 70. -/
theorem from_str_grammar (tc : Char) (name sel host rest : List Char)
    (htc : tc ≠ '\n') (hn : '\t' ∉ name) (hs : '\t' ∉ sel) (hh : '\t' ∉ host) :
    DirectoryItem.from_str
        (tc :: (name ++ '\t' :: (sel ++ '\t' :: (host ++ '\t' :: rest)))) =
      Result.Ok
        { t := Ty.from_char tc, name := name, selector := sel, host := host,
          port := (parseUsize (rest.takeWhile Char.isDigit)).getD 70 } := by
  have hlen : ¬(utf8Len (tc :: (name ++ '\t' :: (sel ++ '\t' :: (host ++ '\t' :: rest)))) ≤ 1) := by
    have h1 := length_le_utf8Len (tc :: (name ++ '\t' :: (sel ++ '\t' :: (host ++ '\t' :: rest))))
    simp only [List.length_cons, List.length_append] at h1
    omega
  unfold DirectoryItem.from_str
  rw [if_neg hlen]
  have hfind : findMatch (tc :: (name ++ '\t' :: (sel ++ '\t' :: (host ++ '\t' :: rest)))) =
      some (name, sel, host, rest.takeWhile Char.isDigit) := by
    simp only [findMatch]
    rw [matchHere_grammar tc name sel host rest htc hn hs hh]
  rw [hfind]
  rfl

/-! ## Claim theorems: item parser -/

/-- C7: the item is classified informational (not navigable) exactly when its
type code is `i`, or its name equals `"fake"`, or its host equals `"fake"`,
or its selector ends with `"fake"`. -/
theorem C7_informational_heuristic (item : DirectoryItem) :
    is_navigable item = false ↔
      (item.t.as_char = 'i' ∨ item.name = str "fake" ∨ item.host = str "fake" ∨
        (str "fake") <:+ item.selector) := by
  have ht : (item.t == Ty.Unknown 'i') = true ↔ item.t.as_char = 'i' := by
    cases item.t <;> simp [Ty.as_char]
  simp only [is_navigable, Bool.not_eq_false', DirectoryItem.is_info, Bool.or_eq_true, ht,
    DirectoryItem.is_fake, List.isSuffixOf_iff_suffix, beq_iff_eq]
  tauto

/-- C8 (amended): on a four-field grammar line whose port field consists of
ASCII characters (the fragment on which the ASCII model of the regex class
`\d` coincides with the source's Unicode-aware one; a non-ASCII decimal-digit
character extending the digit run would make the source capture it and the
usize parse fail, yielding 70), parsing always succeeds and the port is the
usize parse of the maximal digit prefix of the port field, defaulting to 70
on overflow; in particular, when that prefix is empty — the port field is
empty or has no leading digit — the port is exactly 70. -/
theorem C8_port_rule (tc : Char) (name sel host pf : List Char)
    (htc : tc ≠ '\n') (hn : '\t' ∉ name) (hs : '\t' ∉ sel) (hh : '\t' ∉ host)
    (_hascii : ∀ c ∈ pf, c.toNat < 128) :
    DirectoryItem.from_str
        (tc :: (name ++ '\t' :: (sel ++ '\t' :: (host ++ '\t' :: pf)))) =
      Result.Ok
        { t := Ty.from_char tc, name := name, selector := sel, host := host,
          port := (parseUsize (pf.takeWhile Char.isDigit)).getD 70 } ∧
    (pf.takeWhile Char.isDigit = [] →
      DirectoryItem.from_str
          (tc :: (name ++ '\t' :: (sel ++ '\t' :: (host ++ '\t' :: pf)))) =
        Result.Ok
          { t := Ty.from_char tc, name := name, selector := sel, host := host,
            port := 70 }) := by
  refine ⟨from_str_grammar tc name sel host pf htc hn hs hh, fun hpf => ?_⟩
  rw [from_str_grammar tc name sel host pf htc hn hs hh, hpf]
  rfl

/-- Counterexample for C8 as stated: the non-numeric port field `"12ab"`
does not default to 70 — the digit prefix is parsed and the port is 12. -/
theorem C8_counterexample :
    DirectoryItem.from_str (str "0n\ts\th\t12ab") =
      Result.Ok
        { t := Ty.File, name := str "n", selector := str "s", host := str "h",
          port := 12 } ∧
    DirectoryItem.from_str (str "0n\ts\th\t12ab") ≠
      Result.Ok
        { t := Ty.File, name := str "n", selector := str "s", host := str "h",
          port := 70 } := by
  constructor
  · decide
  · decide

/-- Witness for C8 at concrete inputs: the port field `"12ab"` has the
maximal digit prefix `"12"`, so the parsed port is 12. -/
theorem C8_witness :
    (DirectoryItem.from_str
        ('0' :: (str "n" ++ '\t' :: (str "s" ++ '\t' :: (str "h" ++ '\t' :: str "12ab")))) =
      Result.Ok
        { t := Ty.from_char '0', name := str "n", selector := str "s",
          host := str "h",
          port := (parseUsize ((str "12ab").takeWhile Char.isDigit)).getD 70 }) ∧
    ((str "12ab").takeWhile Char.isDigit = [] →
      DirectoryItem.from_str
          ('0' :: (str "n" ++ '\t' :: (str "s" ++ '\t' :: (str "h" ++ '\t' :: str "12ab")))) =
        Result.Ok
          { t := Ty.from_char '0', name := str "n", selector := str "s",
            host := str "h", port := 70 }) :=
  C8_port_rule '0' (str "n") (str "s") (str "h") (str "12ab")
    (by decide) (by decide) (by decide) (by decide) (by decide)

/-- C9 (amended): for newline-free input, `DirectoryItem::from_str` succeeds
exactly when the input is longer than one byte and has at least three tabs
after its first character; on a four-field grammar line (first character not
a newline) the fields are the tab-delimited segments, and everything past the
digit prefix after the third tab, extra tab-separated fields included, is
ignored. -/
theorem C9_success_condition (s : List Char) (hnl : '\n' ∉ s)
    (tc : Char) (name sel host rest : List Char) (htc : tc ≠ '\n')
    (hn : '\t' ∉ name) (hsel : '\t' ∉ sel) (hh : '\t' ∉ host) :
    ((DirectoryItem.from_str s).is_ok = true ↔
      1 < utf8Len s ∧ 3 ≤ (s.drop 1).count '\t') ∧
    DirectoryItem.from_str
        (tc :: (name ++ '\t' :: (sel ++ '\t' :: (host ++ '\t' :: rest)))) =
      Result.Ok
        { t := Ty.from_char tc, name := name, selector := sel, host := host,
          port := (parseUsize (rest.takeWhile Char.isDigit)).getD 70 } := by
  constructor
  · constructor
    · intro hok
      unfold DirectoryItem.from_str at hok
      by_cases hl : utf8Len s ≤ 1
      · rw [if_pos hl] at hok
        simp [Result.is_ok] at hok
      · rcases hf : findMatch s with _ | r
        · rw [if_neg hl, hf] at hok
          simp [Result.is_ok] at hok
        · exact ⟨by omega, findMatch_some_tabs s r hf⟩
    · rintro ⟨h1, h3⟩
      rcases s with _ | ⟨c, cs⟩
      · simp [utf8Len] at h1
      · have hc : c ≠ '\n' := by
          intro hceq
          exact hnl (hceq ▸ List.mem_cons_self c cs)
        obtain ⟨r, hr⟩ := findMatch_of_head c cs hc (by simpa using h3)
        unfold DirectoryItem.from_str
        rw [if_neg (by omega), hr]
        rfl
  · exact from_str_grammar tc name sel host rest htc hn hsel hh

/-- Counterexample for C9 as stated: the input `"\n\t\t\t"` is longer than
one byte and has three tabs after its first character, yet parsing fails,
because the regex's leading `.` cannot match the newline. -/
theorem C9_counterexample :
    1 < utf8Len (str "\n\t\t\t") ∧
    3 ≤ ((str "\n\t\t\t").drop 1).count '\t' ∧
    (DirectoryItem.from_str (str "\n\t\t\t")).is_ok = false := by
  refine ⟨by decide, by decide, by decide⟩

/-- Witness for C9 at concrete inputs. -/
theorem C9_witness :
    ((DirectoryItem.from_str (str "0a\tb\tc\t7x\tz")).is_ok = true ↔
      1 < utf8Len (str "0a\tb\tc\t7x\tz") ∧
      3 ≤ ((str "0a\tb\tc\t7x\tz").drop 1).count '\t') ∧
    DirectoryItem.from_str
        ('0' :: (str "a" ++ '\t' :: (str "b" ++ '\t' :: (str "c" ++ '\t' :: str "7x\tz")))) =
      Result.Ok
        { t := Ty.from_char '0', name := str "a", selector := str "b",
          host := str "c",
          port := (parseUsize ((str "7x\tz").takeWhile Char.isDigit)).getD 70 } :=
  C9_success_condition (str "0a\tb\tc\t7x\tz") (by decide) '0' (str "a") (str "b")
    (str "c") (str "7x\tz") (by decide) (by decide) (by decide) (by decide)

/-- C10: a port field written as digits denoting a value exceeding
`usize::MAX` parses successfully and silently yields the default port 70. -/
theorem C10_port_overflow (tc : Char) (name sel host ds : List Char)
    (htc : tc ≠ '\n') (hn : '\t' ∉ name) (hs : '\t' ∉ sel) (hh : '\t' ∉ host)
    (hne : ds ≠ []) (hdig : ∀ c ∈ ds, c.isDigit = true)
    (hbig : usizeMax < decValue ds) :
    DirectoryItem.from_str
        (tc :: (name ++ '\t' :: (sel ++ '\t' :: (host ++ '\t' :: ds)))) =
      Result.Ok
        { t := Ty.from_char tc, name := name, selector := sel, host := host,
          port := 70 } := by
  rw [from_str_grammar tc name sel host ds htc hn hs hh]
  rw [List.takeWhile_eq_self_iff.mpr hdig]
  have hnone : parseUsize ds = none := by
    unfold parseUsize
    rw [if_neg hne, if_neg (by omega)]
  rw [hnone]
  rfl

/-- Witness for C10 at concrete inputs: the port field `2^64` (one past
`usize::MAX`). -/
theorem C10_witness :
    DirectoryItem.from_str
        ('0' :: (str "n" ++ '\t' :: (str "s" ++ '\t' ::
          (str "h" ++ '\t' :: str "18446744073709551616")))) =
      Result.Ok
        { t := Ty.from_char '0', name := str "n", selector := str "s",
          host := str "h", port := 70 } :=
  C10_port_overflow '0' (str "n") (str "s") (str "h")
    (str "18446744073709551616") (by decide) (by decide) (by decide)
    (by decide) (by decide) (by decide) (by decide)

/-- Witness for C2 at concrete inputs. -/
theorem C2_witness :
    ∃ f, f ∈ (rustLines (str "bad line\n0a\tb\tc\t70\n.")).takeWhile
        (fun x => x ≠ ['.']) ∧
      (DirectoryItem.from_str f).is_ok = false ∧
      Directory.from_str (str "bad line\n0a\tb\tc\t70\n.") =
        Result.Err (GopherError.ParseDirectoryItem f) :=
  C2_parse_abort (str "bad line\n0a\tb\tc\t70\n.") (str "bad line")
    (by decide) (by decide)

/-! ## Round-trip lemmas (C6) -/

/-- Facts about decimal digit characters. -/
theorem digitChar_facts (m : Nat) (h : m < 10) :
    (digitChar m).isDigit = true ∧ (digitChar m).toNat = 48 + m ∧
      digitChar m ≠ '\t' ∧ digitChar m ≠ '\n' ∧ digitChar m ≠ '\r' := by
  unfold digitChar
  rw [Nat.mod_eq_of_lt h]
  interval_cases m <;> exact ⟨by decide, by decide, by decide, by decide, by decide⟩

/-- With enough fuel, the decimal writer emits a non-empty all-digit string
denoting its input. -/
theorem natToDecimalAux_spec (fuel : Nat) :
    ∀ n : Nat, n < fuel →
      natToDecimalAux fuel n ≠ [] ∧
      (∀ c ∈ natToDecimalAux fuel n, c.isDigit = true) ∧
      decValue (natToDecimalAux fuel n) = n := by
  induction fuel with
  | zero => intro n h; omega
  | succ fuel ih =>
    intro n h
    rw [natToDecimalAux]
    by_cases h10 : n < 10
    · rw [if_pos h10]
      refine ⟨by simp, ?_, ?_⟩
      · intro c hc
        rw [List.mem_singleton] at hc
        subst hc
        exact (digitChar_facts n h10).1
      · have hv := (digitChar_facts n h10).2.1
        simp only [decValue, List.foldl_cons, List.foldl_nil, hv]
        omega
    · have hdivlt : n / 10 < n := Nat.div_lt_self (by omega) (by omega)
      obtain ⟨hne, hdig, hval⟩ := ih (n / 10) (by omega)
      have hm := digitChar_facts (n % 10) (Nat.mod_lt n (by omega))
      rw [if_neg h10]
      refine ⟨by simp, ?_, ?_⟩
      · intro c hc
        rw [List.mem_append, List.mem_singleton] at hc
        rcases hc with hc | rfl
        · exact hdig c hc
        · exact hm.1
      · have e : decValue (natToDecimalAux fuel (n / 10) ++ [digitChar (n % 10)]) =
            10 * decValue (natToDecimalAux fuel (n / 10)) +
              ((digitChar (n % 10)).toNat - 48) := by
          simp only [decValue, List.foldl_append, List.foldl_cons, List.foldl_nil]
        rw [e, hval, hm.2.1]
        omega

/-- The decimal form of a natural number: non-empty, all digits, denoting the
number. -/
theorem natToDecimal_spec (n : Nat) :
    natToDecimal n ≠ [] ∧ (∀ c ∈ natToDecimal n, c.isDigit = true) ∧
      decValue (natToDecimal n) = n :=
  natToDecimalAux_spec (n + 1) n (by omega)

/-- The decimal form ends with a digit. -/
theorem natToDecimal_getLast (n : Nat) :
    ∃ c, (natToDecimal n).getLast? = some c ∧ c.isDigit = true := by
  obtain ⟨hne, hdig, -⟩ := natToDecimal_spec n
  exact ⟨(natToDecimal n).getLast hne, List.getLast?_eq_getLast_of_ne_nil hne,
    hdig _ (List.getLast_mem hne)⟩

/-- The item wire form, fully right-associated. -/
theorem fmt_eq (item : DirectoryItem) :
    item.fmt = item.t.as_char ::
      (item.name ++ '\t' :: (item.selector ++ '\t' ::
        (item.host ++ '\t' :: natToDecimal item.port))) := by
  simp [DirectoryItem.fmt]

/-- The item wire form as a prefix followed by the port digits. -/
theorem fmt_eq_append (item : DirectoryItem) :
    item.fmt = (item.t.as_char :: (item.name ++ '\t' :: (item.selector ++ '\t' ::
      (item.host ++ ['\t'])))) ++ natToDecimal item.port := by
  simp [DirectoryItem.fmt]

/-- The item wire form ends with a digit. -/
theorem fmt_last_digit (item : DirectoryItem) :
    ∃ c, item.fmt.getLast? = some c ∧ c.isDigit = true := by
  obtain ⟨c, hc, hd⟩ := natToDecimal_getLast item.port
  refine ⟨c, ?_, hd⟩
  rw [fmt_eq_append, List.getLast?_append, hc]
  rfl

/-- The item wire form never ends in a carriage return, so the `\r\n`
stripping of `str::lines` leaves it intact. -/
theorem stripCr_fmt (item : DirectoryItem) : stripCr item.fmt = item.fmt := by
  obtain ⟨c, hc, hd⟩ := fmt_last_digit item
  have hne : ¬(item.fmt.getLast? = some '\r') := by
    rw [hc]
    intro hcontra
    injection hcontra with h2
    subst h2
    exact absurd hd (by decide)
  unfold stripCr
  rw [if_neg hne]

/-- A wire-safe item's line contains no newline. -/
theorem fmt_no_newline (item : DirectoryItem) (htn : item.t.as_char ≠ '\n')
    (hn : '\n' ∉ item.name) (hs : '\n' ∉ item.selector) (hh : '\n' ∉ item.host) :
    '\n' ∉ item.fmt := by
  obtain ⟨-, hdig, -⟩ := natToDecimal_spec item.port
  intro hmem
  rw [fmt_eq] at hmem
  simp only [List.mem_cons, List.mem_append] at hmem
  rcases hmem with h | h | h | h | h | h | h | h
  · exact htn h.symm
  · exact hn h
  · exact absurd h (by decide)
  · exact hs h
  · exact absurd h (by decide)
  · exact hh h
  · exact absurd h (by decide)
  · exact absurd (hdig '\n' h) (by decide)

/-- An item's line is never the terminator line. -/
theorem fmt_ne_dot (item : DirectoryItem) : item.fmt ≠ ['.'] := by
  obtain ⟨hne, -, -⟩ := natToDecimal_spec item.port
  have hpos : 0 < (natToDecimal item.port).length := List.length_pos.mpr hne
  intro h
  rw [fmt_eq] at h
  have hlen := congrArg List.length h
  simp only [List.length_cons, List.length_append, List.length_nil] at hlen
  omega

/-- Splitting off one newline-free line. -/
theorem linesAux_append_newline (l : List Char) (rest : List Char)
    (acc : List Char) (hl : '\n' ∉ l) :
    linesAux (l ++ '\n' :: rest) acc =
      stripCr (acc.reverse ++ l) :: linesAux rest [] := by
  induction l generalizing acc with
  | nil =>
    rw [List.nil_append, List.append_nil]
    rw [linesAux, if_pos rfl]
  | cons c cs ih =>
    simp only [List.mem_cons, not_or] at hl
    have hc : c ≠ '\n' := fun h => hl.1 h.symm
    rw [List.cons_append, linesAux, if_neg hc, ih (c :: acc) hl.2]
    rw [List.reverse_cons, List.append_assoc, List.singleton_append]

/-- `str::lines` of a formatted directory: one line per item, then the
terminator line. -/
theorem rustLines_fmt (items : List DirectoryItem)
    (h : ∀ i ∈ items, '\n' ∉ i.fmt ∧ stripCr i.fmt = i.fmt) :
    rustLines (Directory.fmt { items := items }) =
      items.map DirectoryItem.fmt ++ [['.']] := by
  induction items with
  | nil => rfl
  | cons i rest ih =>
    obtain ⟨hnl, hcr⟩ := h i (List.mem_cons_self i rest)
    have hfmt : Directory.fmt { items := i :: rest } =
        i.fmt ++ '\n' :: Directory.fmt { items := rest } := by
      simp [Directory.fmt]
    rw [hfmt]
    unfold rustLines
    rw [linesAux_append_newline i.fmt _ [] hnl]
    rw [List.reverse_nil, List.nil_append, hcr]
    rw [List.map_cons, List.cons_append]
    congr 1
    exact ih (fun j hj => h j (List.mem_cons_of_mem i hj))

/-- A wire-safe item parses back to itself. -/
theorem from_str_fmt (item : DirectoryItem)
    (ht : Ty.from_char item.t.as_char = item.t) (htn : item.t.as_char ≠ '\n')
    (hn : '\t' ∉ item.name) (hs : '\t' ∉ item.selector) (hh : '\t' ∉ item.host)
    (hp : item.port ≤ usizeMax) :
    DirectoryItem.from_str item.fmt = Result.Ok item := by
  obtain ⟨hne, hdig, hval⟩ := natToDecimal_spec item.port
  rw [fmt_eq]
  rw [from_str_grammar item.t.as_char item.name item.selector item.host
    (natToDecimal item.port) htn hn hs hh]
  rw [List.takeWhile_eq_self_iff.mpr hdig]
  have hparse : parseUsize (natToDecimal item.port) = some item.port := by
    unfold parseUsize
    rw [if_neg hne, if_pos (by rw [hval]; exact hp), hval]
  rw [hparse, ht]
  rfl

/-- Parsing the formatted lines back: items in order, stopped by the
terminator. -/
theorem parseLines_fmt (items : List DirectoryItem)
    (h : ∀ i ∈ items, DirectoryItem.from_str i.fmt = Result.Ok i ∧ i.fmt ≠ ['.']) :
    parseLines (items.map DirectoryItem.fmt ++ [['.']]) = Result.Ok items := by
  induction items with
  | nil => rfl
  | cons i rest ih =>
    obtain ⟨hok, hne⟩ := h i (List.mem_cons_self i rest)
    rw [List.map_cons, List.cons_append]
    simp only [parseLines]
    rw [if_neg hne, hok]
    rw [ih (fun j hj => h j (List.mem_cons_of_mem i hj))]
    rfl

/-- Statement helper: the conditions under which an item's wire line is
unambiguous (fields free of tabs and newlines, a type character whose wire
code survives `from_char`, and a port representable in `usize`). -/
def wireSafe (item : DirectoryItem) : Prop :=
  Ty.from_char item.t.as_char = item.t ∧ item.t.as_char ≠ '\n' ∧
  '\t' ∉ item.name ∧ '\n' ∉ item.name ∧
  '\t' ∉ item.selector ∧ '\n' ∉ item.selector ∧
  '\t' ∉ item.host ∧ '\n' ∉ item.host ∧
  item.port ≤ usizeMax

instance (item : DirectoryItem) : Decidable (wireSafe item) := by
  unfold wireSafe
  infer_instance

/-- C6 (amended): formatting a directory of wire-safe items (fields free of
tabs and newlines, type characters that survive the wire round-trip, ports
within `usize`) and parsing the result reproduces the directory exactly;
format appends the terminator line and parse consumes it. -/
theorem C6_roundtrip (d : Directory) (h : ∀ item ∈ d.items, wireSafe item) :
    Directory.from_str (Directory.fmt d) = Result.Ok d := by
  obtain ⟨items⟩ := d
  have h1 : ∀ i ∈ items, '\n' ∉ i.fmt ∧ stripCr i.fmt = i.fmt := by
    intro i hi
    obtain ⟨-, htn, -, hn2, -, hs2, -, hh2, -⟩ := h i hi
    exact ⟨fmt_no_newline i htn hn2 hs2 hh2, stripCr_fmt i⟩
  have h2 : ∀ i ∈ items, DirectoryItem.from_str i.fmt = Result.Ok i ∧
      i.fmt ≠ ['.'] := by
    intro i hi
    obtain ⟨ht, htn, hn, -, hs, -, hhh, -, hp⟩ := h i hi
    exact ⟨from_str_fmt i ht htn hn hs hhh hp, fmt_ne_dot i⟩
  unfold Directory.from_str
  rw [rustLines_fmt items h1, parseLines_fmt items h2]
  rfl

/-- An item whose name field holds a tab: its wire line is ambiguous. -/
def itemTabName : DirectoryItem :=
  { t := Ty.File, name := str "a\tb", selector := [], host := str "h", port := 70 }

/-- The item actually recovered from `itemTabName`'s wire line. -/
def itemShifted : DirectoryItem :=
  { t := Ty.File, name := str "a", selector := str "b", host := [], port := 70 }

/-- Counterexample for C6 as stated: an item whose name holds a tab formats
to a line that parses back to a different item (the tab shifts every later
field), so the round-trip fails on unrestricted directories. -/
theorem C6_counterexample :
    Directory.from_str (Directory.fmt { items := [itemTabName] }) =
      Result.Ok { items := [itemShifted] } ∧
    itemShifted ≠ itemTabName := by
  constructor
  · decide
  · decide

/-- Witness for C6 at concrete inputs. -/
theorem C6_witness :
    Directory.from_str (Directory.fmt dirW) = Result.Ok dirW :=
  C6_roundtrip dirW (by decide)

end OldGopher
